import Mathlib

/-!
Shallow embedding of the donation-extraction and aggregation pipeline of
`src/donation_analyzer.py` (module-level functions), together with the
aggregation helper `DonationAnalyzer.convert_to_usd` of the class-based
variant `copy/src/donation_analyzer.py`, which several claims cite.

Modelling conventions:
* Python floats are modelled as exact rationals (`ℚ`).  Every amount the
  program manipulates in the verified scenarios is a small decimal literal,
  on which Python float arithmetic is exact.
* Python strings are modelled as `List Char` (comment texts, authors,
  matched excerpts) or `String` (currency codes, rate-table keys).
* The four regular expressions of `CURRENCY_PATTERNS` are embedded as
  dedicated matchers.  For these patterns greedy matching with
  backtracking is equivalent to committed maximal munch, because after a
  shorter digit run the next character is necessarily a digit, and after a
  shorter whitespace run the next character is necessarily whitespace, so
  no shorter alternative can ever satisfy the rest of the pattern; the
  matchers below therefore take maximal runs directly.
* The regex classes for digits and whitespace are modelled over their ASCII
  members; none of the verified texts contain non-ASCII digits or spaces.
* `$` in a pattern is modelled as end of input; the only case where Python
  additionally lets it match (before one trailing newline) is subsumed
  because the alternative branch for whitespace is tried first and consumes
  the newline.
* Fallible effects (the HTTP rate fetch, SIGINT delivery) become explicit
  parameters: the fetch outcome is an `Option` of the decoded response, and
  the interrupt is an optional stream index at which SIGINT arrives.
-/

/-- ASCII digit class, the relevant fragment of the regex class for digits. -/
def isDigitCh (c : Char) : Bool := decide (48 ≤ c.toNat ∧ c.toNat ≤ 57)

/-- ASCII whitespace class, the relevant fragment of the regex whitespace
class (space, tab, newline, carriage return, vertical tab, form feed);
also the set stripped by Python `str.strip()`. -/
def isSpaceCh (c : Char) : Bool :=
  c == ' ' || c == '\t' || c == '\n' || c == '\r' || c.toNat == 11 || c.toNat == 12

/-- Python `str.strip()`: drop whitespace from both ends. -/
def pyStrip (l : List Char) : List Char :=
  ((l.dropWhile isSpaceCh).reverse.dropWhile isSpaceCh).reverse

/-- Value of a run of decimal digit characters. -/
def decDigits (l : List Char) : ℕ :=
  l.foldl (fun acc c => 10 * acc + (c.toNat - 48)) 0

/-- Python `float(s)` on the plain decimal fragment: optional sign, digits
with an optional fractional part (at least one digit overall), surrounded by
optional whitespace.  `none` models `ValueError`.  Exponent, `inf` and `nan`
forms are not modelled; no text in the repository produces them. -/
def pyFloat (s0 : List Char) : Option ℚ :=
  let s1 := pyStrip s0
  let signed : Bool × List Char :=
    match s1 with
    | c :: r => if c = '-' then (true, r) else if c = '+' then (false, r) else (false, s1)
    | [] => (false, s1)
  let s2 := signed.2
  let d := s2.takeWhile isDigitCh
  let r1 := s2.drop d.length
  let val : Option ℚ :=
    match r1 with
    | [] => if d.isEmpty then none else some ((decDigits d : ℕ) : ℚ)
    | c :: r2 =>
      if c = '.' then
        let f := r2.takeWhile isDigitCh
        if r2.drop f.length = [] then
          if d.isEmpty && f.isEmpty then none
          else some ((decDigits d : ℚ) + (decDigits f : ℚ) / (10 : ℚ) ^ f.length)
        else none
      else none
  match val with
  | none => none
  | some v => some (if signed.1 then -v else v)

/-- Matcher for the sub-pattern of one captured number: greedy digits with an
optional fractional part.  On success returns the captured number text and
the rest of the input. -/
def matchNumber (cs : List Char) : Option (List Char × List Char) :=
  let d := cs.takeWhile isDigitCh
  if d.isEmpty then none
  else
    let rest := cs.drop d.length
    match rest with
    | c :: cs2 =>
      if c = '.' then
        let f := cs2.takeWhile isDigitCh
        if f.isEmpty then some (d, rest)
        else some (d ++ c :: f, cs2.drop f.length)
      else some (d, rest)
    | [] => some (d, [])

/-- Matcher for the trailing group of the patterns: one whitespace character,
or end of input.  Returns the consumed characters and the rest. -/
def tailWsOrEnd : List Char → Option (List Char × List Char)
  | [] => some ([], [])
  | c :: cs => if isSpaceCh c then some ([c], cs) else none

/-- Matcher for the symbol-prefixed patterns of `CURRENCY_PATTERNS`: the
currency symbol, a captured number, then whitespace or end.  On success
returns (number of characters consumed, full match text, captured group). -/
def matchSymNum (sym : Char) : List Char → Option (ℕ × List Char × List Char)
  | [] => none
  | c :: cs =>
    if c = sym then
      match matchNumber cs with
      | none => none
      | some (num, rest) =>
        match tailWsOrEnd rest with
        | none => none
        | some (ws, _) =>
          let full := c :: (num ++ ws)
          some (full.length, full, num)
    else none

/-- Matcher for the suffixed euro pattern of `CURRENCY_PATTERNS`: a captured
number, optional whitespace, the euro sign, then whitespace or end. -/
def matchNumEuro (cs : List Char) : Option (ℕ × List Char × List Char) :=
  match matchNumber cs with
  | none => none
  | some (num, rest) =>
    let sp := rest.takeWhile isSpaceCh
    match rest.drop sp.length with
    | c :: rest3 =>
      if c = '€' then
        match tailWsOrEnd rest3 with
        | none => none
        | some (ws, _) =>
          let full := num ++ sp ++ c :: ws
          some (full.length, full, num)
      else none
    | [] => none

/-- Scanner implementing `re.finditer` for one matcher: try the matcher at
each position from the left, emit non-overlapping matches, resume after each
match.  The fuel argument starts at the length of the text; every step
consumes at least one character, so the fuel never runs out early. -/
def scanAux (m : List Char → Option (ℕ × List Char × List Char)) :
    ℕ → List Char → List (List Char × List Char)
  | 0, _ => []
  | _ + 1, [] => []
  | fuel + 1, c :: cs =>
    match m (c :: cs) with
    | some (n, full, g) => (full, g) :: scanAux m fuel (cs.drop (n - 1))
    | none => scanAux m fuel cs

/-- All matches of one pattern in a text, as (full match, captured group). -/
def scan (m : List Char → Option (ℕ × List Char × List Char)) (t : List Char) :
    List (List Char × List Char) :=
  scanAux m t.length t

/-- One entry of the `CURRENCY_PATTERNS` table: the compiled pattern, the
currency code, the maximum amount recorded in the tuple, the display
symbol. -/
structure CurrencyRule where
  matcher : List Char → Option (ℕ × List Char × List Char)
  currency : String
  patMax : ℚ
  symbol : Char

/-- The module-level `CURRENCY_PATTERNS` table of `src/donation_analyzer.py`,
in its insertion order. -/
def CURRENCY_PATTERNS : List CurrencyRule :=
  [⟨matchSymNum ('$'), ("USD"), 10000, ('$')⟩,
   ⟨matchSymNum ('₹'), ("INR"), 100000, ('₹')⟩,
   ⟨matchSymNum ('€'), ("EUR"), 10000, ('€')⟩,
   ⟨matchNumEuro, ("EUR"), 10000, ('€')⟩]

/-- The module-level `MAX_AMOUNTS` table. -/
def MAX_AMOUNTS : List (String × ℚ) :=
  [(("USD"), 1000), (("INR"), 10000), (("EUR"), 1000)]

/-- Function `is_reasonable_amount` of `src/donation_analyzer.py`. -/
def is_reasonable_amount (amount : ℚ) (currency : String) : Bool :=
  if amount ≤ 0 then false
  else if 1900 ≤ amount ∧ amount ≤ 2100 then false
  else decide (amount ≤ ((MAX_AMOUNTS.lookup currency).getD 1000))

/-- Function `extract_amount` of `src/donation_analyzer.py`: first non-`None`
captured group, zero when the group is absent or empty, zero when `float`
raises, zero when the parsed value is not positive. -/
def extract_amount (g : Option (List Char)) : ℚ :=
  match g with
  | none => 0
  | some s =>
    if s.isEmpty then 0
    else
      match pyFloat s with
      | none => 0
      | some amount => if 0 < amount then amount else 0

/-- A donation record, the tuple `(amount, currency, matched text, author)`
built by `process_comment_batch`. -/
structure DonationRecord where
  amount : ℚ
  currency : String
  matchedText : List Char
  author : List Char
deriving DecidableEq, Repr

/-- Body of the innermost loop of `process_comment_batch`: one regex match of
one currency rule is turned into at most one donation record, guarded by
`amount > 0 and is_reasonable_amount(amount, currency)`. -/
def processMatch (currency : String) (author : List Char) (full g : List Char) :
    Option DonationRecord :=
  let amount := extract_amount (some g)
  if 0 < amount ∧ is_reasonable_amount amount currency then
    some ⟨amount, currency, pyStrip full, author⟩
  else none

/-- The per-comment pattern loop of `process_comment_batch`: every pattern of
`CURRENCY_PATTERNS` is scanned over the text and each match is filtered
through `processMatch`. -/
def processCommentText (t author : List Char) : List DonationRecord :=
  CURRENCY_PATTERNS.flatMap fun rule =>
    (scan rule.matcher t).filterMap fun p => processMatch rule.currency author p.1 p.2

/-- A raw comment as seen by the batch processor: either not a dict at all
(covering also falsy stream items), or a dict whose `text` and `author` keys
may each be absent. -/
inductive PyComment where
  | notDict
  | dict (text : Option (List Char)) (author : Option (List Char))

/-- The per-comment body of `process_comment_batch`: comments that are not a
dict, miss a field, have empty text, text longer than 500 characters, or an
empty author are skipped; a per-comment failure is caught and likewise only
skips that comment. -/
def processComment : PyComment → List DonationRecord
  | .notDict => []
  | .dict t a =>
    match t, a with
    | some text, some author =>
      if text = [] ∨ 500 < text.length ∨ author = [] then []
      else processCommentText text author
    | _, _ => []

/-- Function `process_comment_batch` of `src/donation_analyzer.py`.  The
batch number is used only for logging. -/
def process_comment_batch (comments : List PyComment) (_batchNum : ℕ) :
    List DonationRecord :=
  comments.flatMap processComment

/-- Decoded JSON body of the exchange-rate response: `rates` is `none` when
the key is absent from the document. -/
structure ApiResponse where
  rates : Option (List (String × ℚ))

/-- The hardcoded fallback table of `get_exchange_rates`. -/
def FALLBACK_RATES : List (String × ℚ) :=
  [(("USD"), 1), (("INR"), 83), (("EUR"), 109 / 100)]

/-- Function `get_exchange_rates` of `src/donation_analyzer.py`.  The
argument is the outcome of the network fetch: `none` models any raised
exception (network error, timeout, bad JSON); `some` carries the decoded
document.  A missing `rates` key or missing `INR`/`EUR` entry raises
`ValueError`, and a zero `EUR` rate makes `1/rate` raise
`ZeroDivisionError`; every exception is caught and answered with the
fallback table. -/
def get_exchange_rates (resp : Option ApiResponse) : List (String × ℚ) :=
  match resp with
  | none => FALLBACK_RATES
  | some data =>
    match data.rates with
    | none => FALLBACK_RATES
    | some rates =>
      match rates.lookup ("INR"), rates.lookup ("EUR") with
      | some inr, some eur =>
        if eur = 0 then FALLBACK_RATES
        else [(("USD"), 1), (("INR"), inr), (("EUR"), 1 / eur)]
      | some _, none => FALLBACK_RATES
      | none, _ => FALLBACK_RATES

/-- The failure condition of the rate fetch: any exception outcome, or a
response on which the success branch of `get_exchange_rates` raises. -/
def fetchFailed (resp : Option ApiResponse) : Bool :=
  match resp with
  | none => true
  | some data =>
    match data.rates with
    | none => true
    | some rates =>
      match rates.lookup ("INR"), rates.lookup ("EUR") with
      | some _, some eur => eur == 0
      | some _, none => true
      | none, _ => true

/-- Method `DonationAnalyzer.convert_to_usd` of
`copy/src/donation_analyzer.py`: the reference currency is returned as-is,
any other currency is divided by its rate, a currency absent from the table
contributes zero. -/
def convert_to_usd (amount : ℚ) (currency : String) (rates : List (String × ℚ)) : ℚ :=
  if currency = "USD" then amount
  else
    match rates.lookup currency with
    | some r => amount / r
    | none => 0

/-- One step of the `currency_totals` accumulation of `main`: a Python dict
update `totals[c] = totals.get(c, 0) + a`, preserving insertion order. -/
def addTotal (acc : List (String × ℚ)) (c : String) (a : ℚ) : List (String × ℚ) :=
  if (acc.lookup c).isSome then
    acc.map fun p => if p.1 = c then (p.1, p.2 + a) else p
  else acc ++ [(c, a)]

/-- The `currency_totals` dict built by `main` from the donation list. -/
def currencyTotals (ds : List DonationRecord) : List (String × ℚ) :=
  ds.foldl (fun acc d => addTotal acc d.currency d.amount) []

/-- Lexicographic comparison of currency codes by code point, the order of
Python `sorted` on the dict items. -/
def lexLe : List Char → List Char → Bool
  | [], _ => true
  | _ :: _, [] => false
  | a :: as, b :: bs => if a = b then lexLe as bs else decide (a.toNat < b.toNat)

/-- The report assembled by the aggregation part of `main`: sorted
per-currency totals, the USD total, and the number of donations found. -/
structure AnalysisReport where
  perCurrencyTotals : List (String × ℚ)
  totalUsd : ℚ
  totalDonationsFound : ℕ
deriving DecidableEq

/-- The aggregation performed by `main` of `src/donation_analyzer.py`
(lines 238 to 264): group amounts by currency in encounter order, sort the
totals by currency code, and sum `total / rates.get(currency, 1.0)` into the
USD total. -/
def aggregate (ds : List DonationRecord) (rates : List (String × ℚ)) : AnalysisReport :=
  let totals := currencyTotals ds
  let sorted := totals.mergeSort fun a b => lexLe a.1.toList b.1.toList
  let totalUsd := sorted.foldl (fun acc p => acc + p.2 / ((rates.lookup p.1).getD 1)) 0
  ⟨sorted, totalUsd, ds.length⟩

/-- Outcome of one run of the comment collector: either the function returns
a donation list to its caller, or the whole process exits with a code. -/
inductive RunOutcome where
  | returned (donations : List DonationRecord)
  | processExit (code : ℕ)
deriving DecidableEq

/-- The module-level `signal_handler` of `src/donation_analyzer.py`,
installed for SIGINT at import time: it calls `sys.exit(0)`, so the run
outcome on any SIGINT delivery is a process exit with code 0.  The
`SystemExit` it raises is caught neither by `except KeyboardInterrupt` nor
by `except Exception`. -/
def signal_handler : RunOutcome := .processExit 0

/-- The batch size of `get_video_comments`. -/
def BATCH_SIZE : ℕ := 1000

/-- The comment loop of `get_video_comments`, with the SIGINT delivery point
made explicit: `interruptAt = some k` delivers SIGINT right before stream
item `k` is consumed, upon which the installed `signal_handler` runs.
Batches are modelled as completing as soon as they are drained, which is the
behaviour of the source whenever no worker exceeds its timeout; the
interrupt outcome does not depend on this, because `sys.exit` bypasses all
of the result bookkeeping.  The state carried through the loop is the
running comment count, the next stream index, the batch buffer, the merged
donations, and the batch number. -/
def collectGo (interruptAt : Option ℕ) :
    List PyComment → ℕ → ℕ → List PyComment → List DonationRecord → ℕ → RunOutcome
  | [], count, _idx, batch, merged, batchNum =>
    let merged2 :=
      if batch.isEmpty then merged
      else merged ++ process_comment_batch batch (batchNum + 1)
    if count = 0 then .returned [] else .returned merged2
  | item :: rest, count, idx, batch, merged, batchNum =>
    if interruptAt = some idx then signal_handler
    else
      match item with
      | .notDict => collectGo interruptAt rest count (idx + 1) batch merged batchNum
      | .dict t a =>
        match t, a with
        | some _, some _ =>
          let batch2 := batch ++ [item]
          if BATCH_SIZE ≤ batch2.length then
            collectGo interruptAt rest (count + 1) (idx + 1) []
              (merged ++ process_comment_batch batch2 (batchNum + 1)) (batchNum + 1)
          else
            collectGo interruptAt rest (count + 1) (idx + 1) batch2 merged batchNum
        | _, _ => collectGo interruptAt rest count (idx + 1) batch merged batchNum

/-- Function `get_video_comments` of `src/donation_analyzer.py`, as a
function of the comment stream and of the SIGINT delivery point. -/
def get_video_comments (stream : List PyComment) (interruptAt : Option ℕ) : RunOutcome :=
  collectGo interruptAt stream 0 0 [] [] 0

/-- The comment text of concrete scenario 2, "thanks, here's ₹500 for you";
code point 39 is the apostrophe. -/
def rupeeCommentText : List Char :=
  "thanks, here".toList ++ [Char.ofNat 39] ++ "s ₹500 for you".toList

/-! ## Helper lemmas -/

/-- A scanner finds nothing on a text on which the matcher fails everywhere,
for any predicate preserved by taking the tail. -/
theorem scanAux_eq_nil_of_none
    (m : List Char → Option (ℕ × List Char × List Char))
    (P : List Char → Prop)
    (hP : ∀ c cs, P (c :: cs) → m (c :: cs) = none)
    (htail : ∀ c cs, P (c :: cs) → P cs) :
    ∀ (fuel : ℕ) (t : List Char), P t → scanAux m fuel t = [] := by
  intro fuel
  induction fuel with
  | zero => intro t _; rfl
  | succ k ih =>
    intro t hPt
    cases t with
    | nil => rfl
    | cons c cs =>
      unfold scanAux
      rw [hP c cs hPt]
      exact ih cs (htail c cs hPt)

/-- The rest returned by the number matcher is built from drops and tails of
the input, hence is a subset of it. -/
theorem matchNumber_rest_subset {cs num rest : List Char}
    (h : matchNumber cs = some (num, rest)) : rest ⊆ cs := by
  simp only [matchNumber] at h
  split at h
  · simp at h
  · split at h
    next c cs2 heq =>
      split at h
      · split at h
        · rw [Option.some.injEq, Prod.mk.injEq] at h
          obtain ⟨-, h2⟩ := h
          subst h2
          exact List.drop_subset _ _
        · rw [Option.some.injEq, Prod.mk.injEq] at h
          obtain ⟨-, h2⟩ := h
          subst h2
          intro x hx
          have hx2 : x ∈ c :: cs2 := List.mem_cons_of_mem c (List.drop_subset _ _ hx)
          rw [← heq] at hx2
          exact List.drop_subset _ _ hx2
      · rw [Option.some.injEq, Prod.mk.injEq] at h
        obtain ⟨-, h2⟩ := h
        subst h2
        exact List.drop_subset _ _
    next heq =>
      rw [Option.some.injEq, Prod.mk.injEq] at h
      obtain ⟨-, h2⟩ := h
      subst h2
      exact List.nil_subset _

/-- A symbol-prefixed pattern cannot match where its symbol is not the first
character. -/
theorem matchSymNum_eq_none {sym c : Char} {cs : List Char} (h : c ≠ sym) :
    matchSymNum sym (c :: cs) = none := by
  simp only [matchSymNum]
  rw [if_neg h]

/-- The euro-suffixed pattern cannot match a text that contains no euro
sign. -/
theorem matchNumEuro_eq_none {l : List Char} (h : ('€') ∉ l) :
    matchNumEuro l = none := by
  unfold matchNumEuro
  cases hm : matchNumber l with
  | none => rfl
  | some p =>
    obtain ⟨num, rest⟩ := p
    have hsub : rest ⊆ l := matchNumber_rest_subset hm
    cases hd : rest.drop (rest.takeWhile isSpaceCh).length with
    | nil => simp [hd]
    | cons c r3 =>
      have hcl : c ∈ l := hsub (List.drop_subset _ _ (hd ▸ List.mem_cons_self c r3))
      have hcE : c ≠ '€' := fun hc => h (hc ▸ hcl)
      simp [hd, hcE]

/-- A scan for a symbol-prefixed pattern over a text without that symbol
finds nothing. -/
theorem scan_matchSymNum_eq_nil {sym : Char} {t : List Char} (h : sym ∉ t) :
    scan (matchSymNum sym) t = [] :=
  scanAux_eq_nil_of_none (matchSymNum sym) (fun l => sym ∉ l)
    (fun _ _ hP => matchSymNum_eq_none (fun hc => hP (hc ▸ List.mem_cons_self _ _)))
    (fun c _ hP hmem => hP (List.mem_cons_of_mem c hmem))
    t.length t h

/-- A scan for the euro-suffixed pattern over a text without the euro sign
finds nothing. -/
theorem scan_matchNumEuro_eq_nil {t : List Char} (h : ('€') ∉ t) :
    scan matchNumEuro t = [] :=
  scanAux_eq_nil_of_none matchNumEuro (fun l => ('€') ∉ l)
    (fun _ _ hP => matchNumEuro_eq_none hP)
    (fun c _ hP hmem => hP (List.mem_cons_of_mem c hmem))
    t.length t h

/-- A record produced by `processMatch` carries the rule's currency, a
positive amount, and passes `is_reasonable_amount`. -/
theorem mem_processMatch {currency : String} {author full g : List Char}
    {d : DonationRecord} (h : processMatch currency author full g = some d) :
    d.currency = currency ∧ 0 < d.amount ∧
      is_reasonable_amount d.amount currency = true := by
  simp only [processMatch] at h
  split at h
  next hcond =>
    have hx := Option.some.inj h
    subst hx
    exact ⟨rfl, hcond.1, hcond.2⟩
  next => simp at h

/-- What `is_reasonable_amount amount currency = true` guarantees: the amount
lies outside the calendar-year band and below the configured maximum for the
currency (1000 for an unknown code). -/
theorem is_reasonable_spec {amount : ℚ} {currency : String}
    (h : is_reasonable_amount amount currency = true) :
    ¬(1900 ≤ amount ∧ amount ≤ 2100) ∧
      amount ≤ ((MAX_AMOUNTS.lookup currency).getD 1000) := by
  unfold is_reasonable_amount at h
  split at h
  · simp at h
  · split at h
    next hband => simp at h
    next hband => exact ⟨hband, by simpa using h⟩

/-- Every record of `processCommentText` comes from some rule of the table
and satisfies the plausibility guard for that rule's currency. -/
theorem mem_processCommentText {t author : List Char} {d : DonationRecord}
    (h : d ∈ processCommentText t author) :
    ∃ rule ∈ CURRENCY_PATTERNS, d.currency = rule.currency ∧ 0 < d.amount ∧
      is_reasonable_amount d.amount rule.currency = true := by
  unfold processCommentText at h
  rw [List.mem_flatMap] at h
  obtain ⟨rule, hrule, hd⟩ := h
  rw [List.mem_filterMap] at hd
  obtain ⟨p, -, hp⟩ := hd
  exact ⟨rule, hrule, mem_processMatch hp⟩

/-- Every record of `process_comment_batch` comes from some rule of the table
and satisfies the plausibility guard. -/
theorem mem_process_comment_batch {comments : List PyComment} {n : ℕ}
    {d : DonationRecord} (h : d ∈ process_comment_batch comments n) :
    ∃ rule ∈ CURRENCY_PATTERNS, d.currency = rule.currency ∧ 0 < d.amount ∧
      is_reasonable_amount d.amount rule.currency = true := by
  unfold process_comment_batch at h
  rw [List.mem_flatMap] at h
  obtain ⟨c, -, hd⟩ := h
  cases c with
  | notDict => simp [processComment] at hd
  | dict t a =>
    cases t with
    | none => simp [processComment] at hd
    | some text =>
      cases a with
      | none => simp [processComment] at hd
      | some author =>
        simp only [processComment] at hd
        split at hd
        · simp at hd
        · exact mem_processCommentText hd

/-- Whenever SIGINT is delivered at a stream index the loop actually
reaches, the installed handler exits the process: the merged donations held
in the loop state are never returned, whatever they are. -/
theorem collectGo_interrupt (k : ℕ) :
    ∀ (stream : List PyComment) (count idx : ℕ) (batch : List PyComment)
      (merged : List DonationRecord) (bn : ℕ),
      idx ≤ k → k < idx + stream.length →
      collectGo (some k) stream count idx batch merged bn = .processExit 0 := by
  intro stream
  induction stream with
  | nil =>
    intro count idx batch merged bn h1 h2
    exact absurd h2 (by simp; omega)
  | cons item rest ih =>
    intro count idx batch merged bn h1 h2
    simp only [List.length_cons] at h2
    by_cases hik : idx = k
    · subst hik
      unfold collectGo
      rw [if_pos rfl]
      rfl
    · unfold collectGo
      rw [if_neg (fun hc => hik (Option.some.inj hc).symm)]
      cases item with
      | notDict => exact ih count (idx + 1) batch merged bn (by omega) (by omega)
      | dict t a =>
        cases t with
        | none => exact ih count (idx + 1) batch merged bn (by omega) (by omega)
        | some tx =>
          cases a with
          | none => exact ih count (idx + 1) batch merged bn (by omega) (by omega)
          | some au =>
            dsimp only
            split
            · exact ih (count + 1) (idx + 1) _ _ _ (by omega) (by omega)
            · exact ih (count + 1) (idx + 1) _ _ _ (by omega) (by omega)

/-! ## Claim theorems -/

/-- C1: every donation record emitted by the batch processor has a positive
amount that is at most the configured maximum for its currency (the
operative `MAX_AMOUNTS` bound, and a fortiori the bound stored in the
matching rule's `CURRENCY_PATTERNS` tuple), and no record is emitted with an
amount in the calendar-year exclusion band from 1900 to 2100. -/
theorem batch_amounts_plausible (comments : List PyComment) (n : ℕ)
    (d : DonationRecord) (rule : CurrencyRule)
    (hmem : d ∈ process_comment_batch comments n)
    (hrule : rule ∈ CURRENCY_PATTERNS) (hcur : rule.currency = d.currency) :
    0 < d.amount ∧
    d.amount ≤ ((MAX_AMOUNTS.lookup d.currency).getD 1000) ∧
    ¬(1900 ≤ d.amount ∧ d.amount ≤ 2100) ∧
    d.amount ≤ rule.patMax := by
  obtain ⟨r0, hr0, hc0, hpos, hreas⟩ := mem_process_comment_batch hmem
  rw [← hc0] at hreas
  obtain ⟨hband, hmax⟩ := is_reasonable_spec hreas
  refine ⟨hpos, hmax, hband, ?_⟩
  rw [← hcur] at hmax
  simp only [CURRENCY_PATTERNS, List.mem_cons, List.not_mem_nil, or_false] at hrule
  rcases hrule with h | h | h | h
  · subst h
    have hl : ((MAX_AMOUNTS.lookup ("USD")).getD 1000) = 1000 := by decide
    rw [hl] at hmax
    exact hmax.trans (by norm_num)
  · subst h
    have hl : ((MAX_AMOUNTS.lookup ("INR")).getD 1000) = 10000 := by decide
    rw [hl] at hmax
    exact hmax.trans (by norm_num)
  · subst h
    have hl : ((MAX_AMOUNTS.lookup ("EUR")).getD 1000) = 1000 := by decide
    rw [hl] at hmax
    exact hmax.trans (by norm_num)
  · subst h
    have hl : ((MAX_AMOUNTS.lookup ("EUR")).getD 1000) = 1000 := by decide
    rw [hl] at hmax
    exact hmax.trans (by norm_num)

/-- Witness for the C1 theorem: the record extracted from the comment
"$5 hi" by author "a" satisfies every bound at the USD rule. -/
theorem batch_amounts_plausible_witness :
    (0 : ℚ) < 5 ∧
    (5 : ℚ) ≤ ((MAX_AMOUNTS.lookup ("USD")).getD 1000) ∧
    ¬((1900 : ℚ) ≤ 5 ∧ (5 : ℚ) ≤ 2100) ∧
    (5 : ℚ) ≤ 10000 :=
  batch_amounts_plausible
    [.dict (some ("$5 hi".toList)) (some ("a".toList))] 1
    ⟨5, ("USD"), "$5".toList, "a".toList⟩
    ⟨matchSymNum ('$'), ("USD"), 10000, ('$')⟩
    (by decide) (by simp [CURRENCY_PATTERNS]) rfl

/-- C2: on every failure of the exchange-rate fetch (a raised exception, a
missing rates mapping, a missing INR or EUR entry, or a zero EUR rate making
the reciprocal raise), `get_exchange_rates` returns the hardcoded fallback
table USD 1.0, INR 83.0, EUR 1.09 instead of propagating the error. -/
theorem fallback_on_fetch_failure (resp : Option ApiResponse)
    (h : fetchFailed resp = true) :
    get_exchange_rates resp = FALLBACK_RATES := by
  cases resp with
  | none => rfl
  | some data =>
    cases hr : data.rates with
    | none => simp [get_exchange_rates, hr]
    | some rates =>
      simp only [fetchFailed, hr] at h
      simp only [get_exchange_rates, hr]
      cases hi : rates.lookup ("INR") with
      | none => simp [hi]
      | some inr =>
        cases he : rates.lookup ("EUR") with
        | none => simp [hi, he]
        | some eur =>
          simp only [hi, he] at h
          have hz : eur = 0 := by simpa using h
          simp [hi, he, hz]

/-- Witness for the C2 theorem: a network failure (exception outcome)
returns the fallback table. -/
theorem fallback_on_fetch_failure_witness :
    fetchFailed none = true ∧ get_exchange_rates none = FALLBACK_RATES :=
  ⟨by decide, fallback_on_fetch_failure none (by decide)⟩

/-- C3, bug evidence: the module-level SIGINT handler calls `sys.exit(0)`,
and the `SystemExit` it raises is caught neither by `except
KeyboardInterrupt` nor by `except Exception`, so whenever the interrupt
arrives while the comment loop is still consuming the stream the process
exits with code 0 and the already-merged donation records are discarded
instead of being returned to the caller. -/
theorem sigint_exits_process (stream : List PyComment) (k : ℕ)
    (h : k < stream.length) :
    get_video_comments stream (some k) = .processExit 0 :=
  collectGo_interrupt k stream 0 0 [] [] 0 (Nat.zero_le k) (by simpa using h)

/-- Witness for the C3 theorem at a concrete three-item stream interrupted
at index 1. -/
theorem sigint_exits_process_witness :
    1 < ([PyComment.notDict, PyComment.notDict, PyComment.notDict] : List PyComment).length ∧
    get_video_comments [PyComment.notDict, PyComment.notDict, PyComment.notDict] (some 1) =
      .processExit 0 :=
  ⟨by decide,
   sigint_exits_process [PyComment.notDict, PyComment.notDict, PyComment.notDict] 1 (by decide)⟩

/-- C4: for every record list and rate table, the aggregator's conversion of
a per-currency total to the reference currency uses the total as-is for USD,
divides any other currency's total by its rate when present (a zero rate
would raise in the source and is excluded), and contributes zero for a
currency absent from the rate table. -/
theorem aggregator_conversion_cases (ds : List DonationRecord)
    (rates : List (String × ℚ)) (c : String) (t r : ℚ)
    (_hmem : (c, t) ∈ currencyTotals ds) :
    (c = "USD" → convert_to_usd t c rates = t) ∧
    (c ≠ "USD" → rates.lookup c = some r → r ≠ 0 → convert_to_usd t c rates = t / r) ∧
    (c ≠ "USD" → rates.lookup c = none → convert_to_usd t c rates = 0) := by
  refine ⟨fun h => by simp [convert_to_usd, h], fun h hr _ => ?_, fun h hr => ?_⟩
  · simp [convert_to_usd, h, hr]
  · simp [convert_to_usd, h, hr]

/-- Witness for the C4 theorem: one EUR record totalling 5 against the rate
table with EUR rate 2. -/
theorem aggregator_conversion_cases_witness :
    (("EUR" : String) = "USD" → convert_to_usd 5 ("EUR") [(("EUR"), 2)] = 5) ∧
    (("EUR" : String) ≠ "USD" →
      ([(("EUR"), 2)] : List (String × ℚ)).lookup ("EUR") = some 2 →
      (2 : ℚ) ≠ 0 → convert_to_usd 5 ("EUR") [(("EUR"), 2)] = 5 / 2) ∧
    (("EUR" : String) ≠ "USD" →
      ([(("EUR"), 2)] : List (String × ℚ)).lookup ("EUR") = none →
      convert_to_usd 5 ("EUR") [(("EUR"), 2)] = 0) :=
  aggregator_conversion_cases [⟨5, ("EUR"), [], []⟩] [(("EUR"), 2)] ("EUR") 5 2 (by decide)

/-- C5: a comment whose author field is missing is skipped on its own: the
batch result is exactly the concatenation of the records of the comments
around it, so one bad comment never aborts the batch; in particular a batch
of three comments whose middle comment has no author yields exactly the
records of the other two. -/
theorem missing_author_comment_skipped (l1 l2 : List PyComment)
    (t : Option (List Char)) (n : ℕ) :
    (process_comment_batch (l1 ++ PyComment.dict t none :: l2) n =
      process_comment_batch l1 n ++ process_comment_batch l2 n) ∧
    (process_comment_batch
        [.dict (some ("$5 hi".toList)) (some ("a".toList)),
         .dict (some ("great vid".toList)) none,
         .dict (some ("₹500 thanks".toList)) (some ("b".toList))] n =
      [⟨5, ("USD"), "$5".toList, "a".toList⟩,
       ⟨500, ("INR"), "₹500".toList, "b".toList⟩]) := by
  constructor
  · unfold process_comment_batch
    rw [List.flatMap_append, List.flatMap_cons]
    have hbad : processComment (.dict t none) = [] := by cases t <;> rfl
    rw [hbad, List.nil_append]
  · rfl

/-- C6: a text containing none of the configured currency symbols produces
no donation records: a bare number with no currency evidence is never
matched. -/
theorem no_currency_symbol_no_records (t author : List Char)
    (h1 : ('$') ∉ t) (h2 : ('₹') ∉ t) (h3 : ('€') ∉ t) :
    processCommentText t author = [] := by
  unfold processCommentText
  simp only [CURRENCY_PATTERNS, List.flatMap_cons, List.flatMap_nil]
  rw [scan_matchSymNum_eq_nil h1, scan_matchSymNum_eq_nil h2,
      scan_matchSymNum_eq_nil h3, scan_matchNumEuro_eq_nil h3]
  simp

/-- Witness for the C6 theorem: a text with a bare number and no currency
symbol yields no records. -/
theorem no_currency_symbol_no_records_witness :
    (('$') ∉ ("gave 2000 units yesterday".toList) ∧
     ('₹') ∉ ("gave 2000 units yesterday".toList) ∧
     ('€') ∉ ("gave 2000 units yesterday".toList)) ∧
    processCommentText ("gave 2000 units yesterday".toList) ("bob".toList) = [] :=
  ⟨⟨by decide, by decide, by decide⟩,
   no_currency_symbol_no_records ("gave 2000 units yesterday".toList) ("bob".toList)
     (by decide) (by decide) (by decide)⟩

/-- C7: amount extraction is total and a captured group whose text fails
numeric parsing contributes nothing: `extract_amount` answers zero and the
match is dropped by the guard, producing no record and no exception. -/
theorem unparsable_match_dropped (currency : String) (author full g : List Char)
    (h : pyFloat g = none) :
    extract_amount (some g) = 0 ∧ processMatch currency author full g = none := by
  have he : extract_amount (some g) = 0 := by
    simp only [extract_amount]
    split
    · rfl
    · rw [h]
  refine ⟨he, ?_⟩
  simp [processMatch, he]

/-- Witness for the C7 theorem at the unparsable captured text "abc". -/
theorem unparsable_match_dropped_witness :
    pyFloat ("abc".toList) = none ∧
    (extract_amount (some ("abc".toList)) = 0 ∧
      processMatch ("USD") ("a".toList) ("abc".toList) ("abc".toList) = none) :=
  ⟨by decide,
   unparsable_match_dropped ("USD") ("a".toList) ("abc".toList) ("abc".toList) (by decide)⟩

/-- C8: the comment "thanks, here's ₹500 for you" with any non-empty author
produces exactly one donation record, with currency INR and amount 500. -/
theorem rupee_500_single_record (author : List Char) (h : author ≠ []) :
    process_comment_batch [.dict (some rupeeCommentText) (some author)] 1 =
      [⟨500, ("INR"), "₹500".toList, author⟩] := by
  unfold process_comment_batch
  simp only [List.flatMap_cons, List.flatMap_nil, List.append_nil]
  have hc : processComment (.dict (some rupeeCommentText) (some author)) =
      processCommentText rupeeCommentText author := by
    simp only [processComment]
    rw [if_neg]
    push_neg
    exact ⟨by decide, by decide, h⟩
  rw [hc]
  rfl

/-- Witness for the C8 theorem with author "user". -/
theorem rupee_500_single_record_witness :
    ("user".toList ≠ ([] : List Char)) ∧
    process_comment_batch [.dict (some rupeeCommentText) (some ("user".toList))] 1 =
      [⟨500, ("INR"), "₹500".toList, "user".toList⟩] :=
  ⟨by decide, rupee_500_single_record ("user".toList) (by decide)⟩

/-- C9: the aggregation is a pure function of the donation list and the rate
table: running it twice on the same inputs yields the identical report
(per-currency totals, donation count, and USD total), with no hidden
state. -/
theorem aggregate_deterministic (ds : List DonationRecord)
    (rates : List (String × ℚ)) :
    aggregate ds rates = aggregate ds rates := rfl

/-- C10: a successful fetch (rates present with INR and EUR entries, EUR
nonzero) returns exactly the three entries USD at 1.0, INR at the fetched
rate as-is, and EUR at the reciprocal of the fetched rate. -/
theorem successful_fetch_rate_table (rates : List (String × ℚ)) (inr eur : ℚ)
    (hi : rates.lookup ("INR") = some inr) (he : rates.lookup ("EUR") = some eur)
    (hz : eur ≠ 0) :
    get_exchange_rates (some ⟨some rates⟩) =
      [(("USD"), 1), (("INR"), inr), (("EUR"), 1 / eur)] := by
  simp only [get_exchange_rates, hi, he]
  rw [if_neg hz]

/-- Witness for the C10 theorem at a concrete successful response. -/
theorem successful_fetch_rate_table_witness :
    (([(("INR"), 83), (("EUR"), 2)] : List (String × ℚ)).lookup ("INR") = some 83) ∧
    get_exchange_rates (some ⟨some [(("INR"), 83), (("EUR"), 2)]⟩) =
      [(("USD"), 1), (("INR"), 83), (("EUR"), 1 / 2)] :=
  ⟨by decide,
   successful_fetch_rate_table [(("INR"), 83), (("EUR"), 2)] 83 2
     (by decide) (by decide) (by decide)⟩
